import Mathlib

/-!
Verification development for the sign-language frame-to-word pipeline of
`backend/api.py` (class `SignLanguageSystem`).

Embedding conventions:
* Python strings are Lean `String`s; character-level reasoning goes through
  `String.data`.
* Python instance attributes that may not yet exist are modelled with
  `Option`: `stable_frame_count : Option Nat`, where `none` means the
  attribute has never been assigned (the constructor does not set it; only
  `reset_state` and the symbol-change branch of `_handle_prediction` do).
* Python exceptions escaping a function are modelled with
  `Except (String × Session)`: the error carries the exception name and the
  session state as it stands when the exception escapes (Python mutations
  performed before the raise persist).
* The floating point expression `(stable_frame_count / 50) * 100` is
  modelled in exact rational arithmetic `ℚ`.
* The parts of the pipeline that cannot be embedded (image decoding, OpenCV
  filtering, Keras model inference) are oracles supplied in a `FrameEnv`
  record; each oracle's value is what the corresponding Python call would
  return (or the exception it would raise) on the frame under consideration.
-/

namespace SignLang

/-- Decidable equality on `Except`, so that concrete runs of the embedded
functions can be checked by `decide`. -/
instance exceptDecEq {ε : Type} {α : Type} [DecidableEq ε] [DecidableEq α] :
    DecidableEq (Except ε α) := fun x y =>
  match x, y with
  | .error a, .error b =>
    if h : a = b then isTrue (by rw [h])
    else isFalse (fun hc => h (by injection hc))
  | .error _, .ok _ => isFalse (fun hc => Except.noConfusion hc)
  | .ok _, .error _ => isFalse (fun hc => Except.noConfusion hc)
  | .ok a, .ok b =>
    if h : a = b then isTrue (by rw [h])
    else isFalse (fun hc => h (by injection hc))

/-- The session state of `SignLanguageSystem`: `current_word`,
`last_prediction`, `stable_frame_count` and `already_locked`.
`stable_frame_count` is `none` when the Python attribute does not exist
(it is never assigned in `__init__`). -/
structure Session where
  current_word : String
  last_prediction : String
  stable_frame_count : Option Nat
  already_locked : Bool
deriving DecidableEq, Repr

/-- The response dictionary built at the end of `_handle_prediction`
(lines 185-191): prediction, confidence, word, character, sentence. -/
structure Response where
  prediction : String
  confidence : ℚ
  word : String
  character : String
  sentence : String
deriving DecidableEq, Repr

/-- `self.LOCK_THRESHOLD = 50` (line 43). -/
def LOCK_THRESHOLD : Nat := 50

/-- The session state established by `__init__` (lines 41-44): it sets
`current_word = ""`, `last_prediction = "blank"`, `already_locked = False`,
but never assigns `stable_frame_count`, so that attribute is absent. -/
def initSession : Session :=
  { current_word := ""
    last_prediction := "blank"
    stable_frame_count := none
    already_locked := false }

/-- The session state established by `reset_state` (lines 73-77); unlike the
constructor it does assign `stable_frame_count = 0`. -/
def resetSession : Session :=
  { current_word := ""
    last_prediction := "blank"
    stable_frame_count := some 0
    already_locked := false }

/-- Lines 161-168 of `_handle_prediction`: the stability update.  If the
incoming prediction equals `last_prediction` and the session is not locked,
`self.stable_frame_count += 1` runs — which raises `AttributeError` when the
attribute was never assigned.  On a symbol change the attribute is assigned
`1` and the lock is cleared. -/
def stabilityUpdate (s : Session) (current_prediction : String) :
    Except (String × Session) Session :=
  if current_prediction = s.last_prediction then
    if s.already_locked = false then
      match s.stable_frame_count with
      | none => .error ("AttributeError", s)
      | some n => .ok { s with stable_frame_count := some (n + 1) }
    else
      .ok s
  else
    .ok { s with last_prediction := current_prediction
                 stable_frame_count := some 1
                 already_locked := false }

/-- Line 171: `temporal_confidence = min(100.0, (stable_frame_count / 50) * 100.0)`,
in exact rational arithmetic, written as the conditional that `min` of a
linear order unfolds to (see `temporal_confidence_eq_min`). -/
def temporal_confidence (n : Nat) : ℚ :=
  if (100 : ℚ) ≤ (n : ℚ) / (LOCK_THRESHOLD : ℚ) * 100 then 100
  else (n : ℚ) / (LOCK_THRESHOLD : ℚ) * 100

theorem temporal_confidence_eq_min (n : Nat) :
    temporal_confidence n = min 100 ((n : ℚ) / (LOCK_THRESHOLD : ℚ) * 100) := by
  rw [temporal_confidence, min_def]

/-- Embeds `self.current_word.endswith(" ")` (line 176): true exactly when
the last character is a space. -/
def endsWithSpace (w : String) : Prop :=
  w.data.getLast? = some ' '

instance (w : String) : Decidable (endsWithSpace w) := by
  unfold endsWithSpace; infer_instance

/-- Lines 174-182 of `_handle_prediction`: the commit/lock mechanism, given
the already-updated session `s1` and its frame count `n`.  On a commit of
`"blank"` a space is appended only when the word is non-empty and does not
already end with a space; on a commit of a letter the letter is appended;
either way the lock is set. -/
def commitUpdate (s1 : Session) (current_prediction : String) (n : Nat) :
    Session :=
  if LOCK_THRESHOLD ≤ n ∧ s1.already_locked = false then
    let w :=
      if current_prediction = "blank" then
        if s1.current_word ≠ "" ∧ ¬ endsWithSpace s1.current_word then
          s1.current_word ++ " "
        else
          s1.current_word
      else
        s1.current_word ++ current_prediction
    { s1 with current_word := w, already_locked := true }
  else
    s1

/-- `SignLanguageSystem._handle_prediction` (lines 159-191): the stability
update, then the confidence computation (which reads `stable_frame_count`
and so raises `AttributeError` if the attribute is still absent), then the
commit/lock mechanism, then the response dictionary. -/
def handle_prediction (s : Session) (current_prediction : String) :
    Except (String × Session) (Session × Response) :=
  match stabilityUpdate s current_prediction with
  | .error e => .error e
  | .ok s1 =>
    match s1.stable_frame_count with
    | none => .error ("AttributeError", s1)
    | some n =>
      let s2 := commitUpdate s1 current_prediction n
      .ok (s2,
        { prediction := current_prediction
          confidence := temporal_confidence n
          word := s2.current_word
          character := current_prediction
          sentence := "" })

/-- Feeding the same symbol `c` for `n` consecutive frames: `feedN c n s`
runs `handle_prediction` `n` times (discarding the per-frame responses),
propagating any exception. -/
def feedN (c : String) : Nat → Session → Except (String × Session) Session
  | 0, s => .ok s
  | n + 1, s =>
    match feedN c n s with
    | .error e => .error e
    | .ok s' =>
      match handle_prediction s' c with
      | .error e => .error e
      | .ok (s'', _) => .ok s''

/-! ### The frame pipeline `process_frame` (lines 79-157)

Image decoding, OpenCV filtering and Keras inference cannot be computed in
the embedding; their outcomes on the frame under consideration are supplied
as oracle data (`ImageInput`, contour areas, classifier score vectors). -/

/-- The outcome of the decode stage (lines 80-92) for a given payload:
the payload is falsy (`empty`), base64/buffer decoding raises (`badB64`),
`cv2.imdecode` returns `None` (`undecodable`), or a raster frame of shape
`h × w` is obtained. -/
inductive ImageInput where
  | empty : ImageInput
  | badB64 : ImageInput
  | undecodable : ImageInput
  | frame (h w : Nat) : ImageInput
deriving DecidableEq, Repr

/-- Oracle record for one frame: the decode outcome, the areas of the
external contours `cv2.findContours` yields on the preprocessed mask
(line 124), and the score vectors (or raised exceptions) of the four Keras
`predict` calls on the mask tensor. -/
structure FrameEnv where
  input : ImageInput
  contourAreas : List ℚ
  primary : Except String (List ℚ)
  dru : Except String (List ℚ)
  tkdi : Except String (List ℚ)
  smn : Except String (List ℚ)

/-- The value Python's `process_frame` returns: the early
`{"error": "No image data", "confidence": 0}` dictionary, `None` (decode
failures), or a prediction response. -/
inductive ProcResult where
  | errorNoImage : ProcResult
  | nullResult : ProcResult
  | response : Response → ProcResult
deriving DecidableEq, Repr

/-- Line 98/99: `y1 = max(0, (h - 289) // 2)` resp. `x1` with 515; the slice
`frame[y1:y1+roi_h, x1:x1+roi_w]` is clamped to the frame bounds, so the
extent of the ROI along an axis of size `full` with window `win` is
`min full (y1 + win) - y1`.  (Nat subtraction makes `(full - win) / 2`
coincide with Python's `max(0, (full - win) // 2)`.) -/
def roiDim (full win : Nat) : Nat :=
  min full ((full - win) / 2 + win) - (full - win) / 2

/-- Line 125: `not contours or max(cv2.contourArea(c) for c in contours) < 2500`. -/
def noHand (areas : List ℚ) : Bool :=
  match areas with
  | [] => true
  | a :: rest => decide (rest.foldl max a < 2500)

/-- The 27 labels, in the insertion order of `prediction_map`
(lines 138-140): `"blank"` then `string.ascii_uppercase`. -/
def labels : List String :=
  ["blank", "A", "B", "C", "D", "E", "F", "G", "H", "I", "J", "K", "L", "M",
   "N", "O", "P", "Q", "R", "S", "T", "U", "V", "W", "X", "Y", "Z"]

/-- Index of the first occurrence of the maximum: `argmaxAux ys best bestIdx
curIdx` scans `ys` (whose head sits at index `curIdx`), updating only on a
strictly greater score — `np.argmax` and Python's stable descending sort
both return the first occurrence of the maximum. -/
def argmaxAux : List ℚ → ℚ → Nat → Nat → Nat
  | [], _, bestIdx, _ => bestIdx
  | y :: ys, best, bestIdx, curIdx =>
    if best < y then argmaxAux ys y curIdx (curIdx + 1)
    else argmaxAux ys best bestIdx (curIdx + 1)

/-- First index of the maximum of a score list (0 for the empty list, which
the callers never pass). -/
def argmaxIdx : List ℚ → Nat
  | [] => 0
  | x :: xs => argmaxAux xs x 0 1

/-- Lines 138-143: `prediction_map` associates `labels` with the first 27
primary scores in insertion order; the stable descending sort then puts the
first-occurring maximal label on top, so `top_symbol` is the label at the
first-max index. -/
def top_symbol (scores : List ℚ) : String :=
  labels.getD (argmaxIdx (scores.take 27)) "blank"

/-- `group[np.argmax(res)]` for a disambiguator (lines 148-155):
`np.argmax` raises `ValueError` on an empty score vector, and the list
lookup raises `IndexError` if the argmax index falls outside the group. -/
def pickLabel (group : List String) (scores : List ℚ) : Except String String :=
  match scores with
  | [] => .error "ValueError"
  | a :: rest =>
    match group.get? (argmaxIdx (a :: rest)) with
    | some l => .ok l
    | none => .error "IndexError"

/-- Lines 145-155, the hierarchical refinement: the ordered `if/elif`
membership tests over `['D','R','U']`, `['D','I','K','T']`, `['M','N','S']`;
the first matching group's disambiguator argmax overrides the primary
candidate, otherwise the candidate stands. -/
def refineSymbol (top : String) (dru tkdi smn : Except String (List ℚ)) :
    Except String String :=
  if top ∈ (["D", "R", "U"] : List String) then
    dru.bind (pickLabel ["D", "R", "U"])
  else if top ∈ (["D", "I", "K", "T"] : List String) then
    tkdi.bind (pickLabel ["D", "I", "K", "T"])
  else if top ∈ (["M", "N", "S"] : List String) then
    smn.bind (pickLabel ["M", "N", "S"])
  else
    .ok top

/-- Wraps the `return self._handle_prediction(sym)` exits of
`process_frame` (lines 103, 126, 157). -/
def handleWrap (s : Session) (sym : String) :
    Except (String × Session) (Session × ProcResult) :=
  (handle_prediction s sym).map fun p => (p.1, ProcResult.response p.2)

/-- `SignLanguageSystem.process_frame` (lines 79-157).  The `try/except`
covers only the decode stage (lines 83-92): decode exceptions and an
undecodable frame both return `None`.  After decoding: the ROI-area gate
(line 102), the contour gate (line 125), the primary prediction (line 137,
whose 27 scores populate `prediction_map`; fewer scores would raise
`IndexError` at line 140), the hierarchical refinement, and the stability
state machine.  Exceptions raised after the decode stage are NOT caught and
escape `process_frame`. -/
def process_frame (s : Session) (env : FrameEnv) :
    Except (String × Session) (Session × ProcResult) :=
  match env.input with
  | .empty => .ok (s, .errorNoImage)
  | .badB64 => .ok (s, .nullResult)
  | .undecodable => .ok (s, .nullResult)
  | .frame h w =>
    if roiDim h 289 * roiDim w 515 * 3 = 0 then
      handleWrap s "blank"
    else if noHand env.contourAreas then
      handleWrap s "blank"
    else
      match env.primary with
      | .error e => .error (e, s)
      | .ok scores =>
        if scores.length < 27 then .error ("IndexError", s)
        else
          match refineSymbol (top_symbol scores) env.dru env.tkdi env.smn with
          | .error e => .error (e, s)
          | .ok finalSym => handleWrap s finalSym

/-! ### Step equations for `handle_prediction` -/

theorem step_diff (s : Session) (c : String) (h : c ≠ s.last_prediction) :
    handle_prediction s c =
      .ok ({ s with last_prediction := c, stable_frame_count := some 1,
                    already_locked := false },
        { prediction := c, confidence := temporal_confidence 1,
          word := s.current_word, character := c, sentence := "" }) := by
  simp [handle_prediction, stabilityUpdate, commitUpdate, h, LOCK_THRESHOLD]

theorem step_same_locked (s : Session) (c : String) (n : Nat)
    (h1 : c = s.last_prediction) (h2 : s.already_locked = true)
    (h3 : s.stable_frame_count = some n) :
    handle_prediction s c =
      .ok (s, { prediction := c, confidence := temporal_confidence n,
                word := s.current_word, character := c, sentence := "" }) := by
  subst h1
  simp [handle_prediction, stabilityUpdate, commitUpdate, h2, h3]

theorem step_same_unlocked_nocommit (s : Session) (c : String) (n : Nat)
    (h1 : c = s.last_prediction) (h2 : s.already_locked = false)
    (h3 : s.stable_frame_count = some n) (h4 : n + 1 < LOCK_THRESHOLD) :
    handle_prediction s c =
      .ok ({ s with stable_frame_count := some (n + 1) },
        { prediction := c, confidence := temporal_confidence (n + 1),
          word := s.current_word, character := c, sentence := "" }) := by
  subst h1
  have h5 : ¬ (LOCK_THRESHOLD ≤ n + 1) := by omega
  simp [handle_prediction, stabilityUpdate, commitUpdate, h2, h3, h5]

theorem step_same_unlocked_commit_letter (s : Session) (c : String) (n : Nat)
    (h1 : c = s.last_prediction) (h2 : s.already_locked = false)
    (h3 : s.stable_frame_count = some n) (h4 : LOCK_THRESHOLD ≤ n + 1)
    (h5 : c ≠ "blank") :
    handle_prediction s c =
      .ok ({ s with current_word := s.current_word ++ c,
                    stable_frame_count := some (n + 1),
                    already_locked := true },
        { prediction := c, confidence := temporal_confidence (n + 1),
          word := s.current_word ++ c, character := c, sentence := "" }) := by
  subst h1
  simp [handle_prediction, stabilityUpdate, commitUpdate, h2, h3, h4, h5]

theorem step_same_unlocked_commit_blank (s : Session) (n : Nat)
    (h1 : s.last_prediction = "blank") (h2 : s.already_locked = false)
    (h3 : s.stable_frame_count = some n) (h4 : LOCK_THRESHOLD ≤ n + 1) :
    handle_prediction s "blank" =
      .ok ({ s with
              current_word :=
                if s.current_word ≠ "" ∧ ¬ endsWithSpace s.current_word
                then s.current_word ++ " " else s.current_word,
              stable_frame_count := some (n + 1),
              already_locked := true },
        { prediction := "blank", confidence := temporal_confidence (n + 1),
          word := if s.current_word ≠ "" ∧ ¬ endsWithSpace s.current_word
                  then s.current_word ++ " " else s.current_word,
          character := "blank", sentence := "" }) := by
  simp [handle_prediction, stabilityUpdate, commitUpdate, h1, h2, h3, h4]

/-! ### Inversion lemmas -/

theorem stability_ok_elim {s : Session} {c : String} {s1 : Session}
    (h : stabilityUpdate s c = .ok s1) :
    (c = s.last_prediction ∧ s.already_locked = false ∧
       ∃ n, s.stable_frame_count = some n ∧
         s1 = { s with stable_frame_count := some (n + 1) }) ∨
    (c = s.last_prediction ∧ s.already_locked = true ∧ s1 = s) ∨
    (c ≠ s.last_prediction ∧
       s1 = { s with last_prediction := c, stable_frame_count := some 1,
                     already_locked := false }) := by
  unfold stabilityUpdate at h
  by_cases h1 : c = s.last_prediction
  · rw [if_pos h1] at h
    by_cases h2 : s.already_locked = false
    · rw [if_pos h2] at h
      cases h3 : s.stable_frame_count with
      | none => rw [h3] at h; simp at h
      | some n =>
        rw [h3] at h
        simp only [Except.ok.injEq] at h
        exact Or.inl ⟨h1, h2, n, rfl, h.symm⟩
    · rw [if_neg h2] at h
      simp only [Except.ok.injEq] at h
      refine Or.inr (Or.inl ⟨h1, ?_, h.symm⟩)
      revert h2; cases s.already_locked <;> simp
  · rw [if_neg h1] at h
    simp only [Except.ok.injEq] at h
    exact Or.inr (Or.inr ⟨h1, h.symm⟩)

theorem handle_ok_elim {s : Session} {c : String} {s' : Session} {r : Response}
    (h : handle_prediction s c = .ok (s', r)) :
    ∃ s1 n, stabilityUpdate s c = .ok s1 ∧ s1.stable_frame_count = some n ∧
      s' = commitUpdate s1 c n ∧
      r = { prediction := c, confidence := temporal_confidence n,
            word := s'.current_word, character := c, sentence := "" } := by
  unfold handle_prediction at h
  cases hs : stabilityUpdate s c with
  | error e => rw [hs] at h; simp at h
  | ok s1 =>
    rw [hs] at h
    dsimp only at h
    cases hn : s1.stable_frame_count with
    | none => rw [hn] at h; simp at h
    | some n =>
      rw [hn] at h
      simp only [Except.ok.injEq, Prod.mk.injEq] at h
      obtain ⟨hs', hr⟩ := h
      exact ⟨s1, n, rfl, hn, hs'.symm, by rw [hr.symm, hs'.symm]⟩

theorem commit_stable_frame_count (s1 : Session) (c : String) (n : Nat) :
    (commitUpdate s1 c n).stable_frame_count = s1.stable_frame_count := by
  unfold commitUpdate; split <;> simp

theorem commit_last_prediction (s1 : Session) (c : String) (n : Nat) :
    (commitUpdate s1 c n).last_prediction = s1.last_prediction := by
  unfold commitUpdate; split <;> simp

theorem commit_locked_elim {s1 : Session} {c : String} {n : Nat}
    (h : (commitUpdate s1 c n).already_locked = true) :
    s1.already_locked = true ∨ LOCK_THRESHOLD ≤ n := by
  unfold commitUpdate at h
  split at h
  · next hc => exact Or.inr hc.1
  · exact Or.inl h

theorem commit_word_cases (s1 : Session) (c : String) (n : Nat) :
    (commitUpdate s1 c n).current_word = s1.current_word ∨
    (c = "blank" ∧ s1.current_word ≠ "" ∧ ¬ endsWithSpace s1.current_word ∧
       (commitUpdate s1 c n).current_word = s1.current_word ++ " ") ∨
    (c ≠ "blank" ∧ (commitUpdate s1 c n).current_word = s1.current_word ++ c) := by
  unfold commitUpdate
  split
  · split
    · next hb =>
      split
      · next hcond => exact Or.inr (Or.inl ⟨hb, hcond.1, hcond.2, by simp⟩)
      · exact Or.inl (by simp)
    · next hb => exact Or.inr (Or.inr ⟨hb, by simp⟩)
  · exact Or.inl rfl

/-! ### Reachable session states

The pipeline only ever feeds `_handle_prediction` the string `"blank"` or a
label produced by the classifier cascade, all of which lie in `labels`
(see `pipeline_feeds_labels` below).  `Reachable` describes every state
obtainable from `reset_state` by such calls. -/

inductive Reachable : Session → Prop where
  | reset : Reachable resetSession
  | step {s : Session} {c : String} {s' : Session} {r : Response} :
      Reachable s → c ∈ labels → handle_prediction s c = .ok (s', r) →
      Reachable s'

theorem reachable_count_some {s : Session} (h : Reachable s) :
    ∃ n, s.stable_frame_count = some n := by
  induction h with
  | reset => exact ⟨0, rfl⟩
  | step _ _ hstep _ =>
    obtain ⟨s1, n, _, hn, hs', _⟩ := handle_ok_elim hstep
    exact ⟨n, by rw [hs', commit_stable_frame_count, hn]⟩

theorem reachable_locked_ge {s : Session} (h : Reachable s)
    (hl : s.already_locked = true) :
    ∃ n, s.stable_frame_count = some n ∧ LOCK_THRESHOLD ≤ n := by
  induction h with
  | reset => exact absurd hl (by simp [resetSession])
  | step hreach hmem hstep ih =>
    obtain ⟨s1, n, hstab, hn, hs', _⟩ := handle_ok_elim hstep
    subst hs'
    refine ⟨n, by rw [commit_stable_frame_count, hn], ?_⟩
    rcases commit_locked_elim hl with hl1 | hthr
    · -- the lock predates the commit check: trace it through the stability update
      rcases stability_ok_elim hstab with ⟨_, h2, _, _, rfl⟩ | ⟨_, h2, rfl⟩ | ⟨_, rfl⟩
      · simp [h2] at hl1
      · obtain ⟨m, hm, hge⟩ := ih h2
        rw [hm] at hn; cases hn; exact hge
      · simp at hl1
    · exact hthr

/-! ### Character-level predicates on the committed word -/

/-- Every committed character is a space or an uppercase letter. -/
def validChar (ch : Char) : Bool :=
  ch = ' ' || ('A' ≤ ch && ch ≤ 'Z')

/-- No two adjacent spaces. -/
def noDoubleSpace : List Char → Bool
  | [] => true
  | [_] => true
  | a :: b :: rest => (!(a = ' ' && b = ' ')) && noDoubleSpace (b :: rest)

/-- The word neither starts with a space nor contains two adjacent spaces. -/
def goodSpacing (l : List Char) : Bool :=
  (l.head? ≠ some ' ') && noDoubleSpace l

theorem noDoubleSpace_append_single {l : List Char} {ch : Char}
    (h : noDoubleSpace l = true)
    (hside : l.getLast? ≠ some ' ' ∨ ch ≠ ' ') :
    noDoubleSpace (l ++ [ch]) = true := by
  induction l with
  | nil => simp [noDoubleSpace]
  | cons a tl ih =>
    cases tl with
    | nil =>
      have hac : ¬ (a = ' ' ∧ ch = ' ') := by
        rcases hside with ha | hch
        · exact fun hc => ha (by simp [hc.1])
        · exact fun hc => hch hc.2
      simp only [List.cons_append, List.nil_append, noDoubleSpace,
        Bool.and_eq_true, Bool.not_eq_true', Bool.and_eq_false_iff,
        decide_eq_false_iff_not]
      refine ⟨?_, trivial⟩
      by_cases ha : a = ' '
      · exact Or.inr fun hc => hac ⟨ha, hc⟩
      · exact Or.inl ha
    | cons b rest =>
      simp only [noDoubleSpace, Bool.and_eq_true] at h
      have hlast : (b :: rest).getLast? ≠ some ' ' ∨ ch ≠ ' ' := by
        rcases hside with hl | hc
        · left; rwa [List.getLast?_cons_cons] at hl
        · right; exact hc
      have hrec := ih h.2 hlast
      simp only [List.cons_append, noDoubleSpace, Bool.and_eq_true] at hrec ⊢
      exact ⟨h.1, hrec⟩

theorem goodSpacing_append_space {l : List Char}
    (h : goodSpacing l = true) (hne : l ≠ [])
    (hlast : l.getLast? ≠ some ' ') :
    goodSpacing (l ++ [' ']) = true := by
  unfold goodSpacing at h ⊢
  simp only [Bool.and_eq_true, decide_eq_true_eq] at h ⊢
  refine ⟨?_, noDoubleSpace_append_single h.2 (Or.inl hlast)⟩
  cases l with
  | nil => exact absurd rfl hne
  | cons a tl => simpa using h.1

theorem goodSpacing_append_nonspace {l : List Char} {ch : Char}
    (h : goodSpacing l = true) (hch : ch ≠ ' ') :
    goodSpacing (l ++ [ch]) = true := by
  unfold goodSpacing at h ⊢
  simp only [Bool.and_eq_true, decide_eq_true_eq] at h ⊢
  refine ⟨?_, noDoubleSpace_append_single h.2 (Or.inr hch)⟩
  cases l with
  | nil => simpa using hch
  | cons a tl => simpa using h.1

/-- Every non-`"blank"` member of `labels` is a single character that is an
uppercase letter (in particular not a space). -/
theorem labels_letter {c : String} (hc : c ∈ labels) (hb : c ≠ "blank") :
    ∃ ch, c.data = [ch] ∧ validChar ch = true ∧ ch ≠ ' ' := by
  fin_cases hc
  · exact absurd rfl hb
  all_goals exact ⟨_, rfl, by decide, by decide⟩

/-- `(a ++ b).data = a.data ++ b.data` for the string append of the
embedding. -/
theorem str_data_append (a b : String) : (a ++ b).data = a.data ++ b.data :=
  rfl

theorem str_ne_empty_data {w : String} (h : w ≠ "") : w.data ≠ [] := by
  intro hd
  exact h (by cases w; simp_all [String.ext_iff])

/-! ### Arithmetic facts about the confidence formula -/

theorem temporal_confidence_ge (n : Nat) (h : LOCK_THRESHOLD ≤ n) :
    temporal_confidence n = 100 := by
  have h50 : (100 : ℚ) ≤ (n : ℚ) / (LOCK_THRESHOLD : ℚ) * 100 := by
    unfold LOCK_THRESHOLD at *
    rw [div_mul_eq_mul_div, le_div_iff₀ (by norm_num)]
    have : (50 : ℚ) ≤ (n : ℚ) := by exact_mod_cast h
    push_cast
    linarith
  unfold temporal_confidence
  rw [if_pos h50]

theorem temporal_confidence_mono (n : Nat) :
    temporal_confidence n ≤ temporal_confidence (n + 1) := by
  rw [temporal_confidence_eq_min, temporal_confidence_eq_min]
  refine min_le_min le_rfl ?_
  have hc : ((n : ℚ)) ≤ ((n + 1 : Nat) : ℚ) := by push_cast; linarith
  have h50 : (0 : ℚ) < (LOCK_THRESHOLD : ℚ) := by norm_num [LOCK_THRESHOLD]
  exact mul_le_mul_of_nonneg_right
    ((div_le_div_iff_of_pos_right h50).mpr hc) (by norm_num)

theorem space_data : (" " : String).data = [' '] := rfl

/-- How `current_word` can change in one `_handle_prediction` call: it stays,
or a commit of `"blank"` appends one space (only when the word is non-empty
and does not end with a space), or a commit of a letter appends the letter. -/
theorem handle_word_cases {s : Session} {c : String} {s' : Session} {r : Response}
    (h : handle_prediction s c = .ok (s', r)) :
    s'.current_word = s.current_word ∨
    (c = "blank" ∧ s.current_word ≠ "" ∧ ¬ endsWithSpace s.current_word ∧
       s'.current_word = s.current_word ++ " ") ∨
    (c ≠ "blank" ∧ s'.current_word = s.current_word ++ c) := by
  obtain ⟨s1, n, hstab, hn, hs', _⟩ := handle_ok_elim h
  have hw1 : s1.current_word = s.current_word := by
    rcases stability_ok_elim hstab with ⟨_, _, _, _, rfl⟩ | ⟨_, _, rfl⟩ | ⟨_, rfl⟩ <;> simp
  subst hs'
  rcases commit_word_cases s1 c n with hsame | ⟨hb, hne, hlast, happ⟩ | ⟨hb, happ⟩
  · exact Or.inl (by rw [hsame, hw1])
  · exact Or.inr (Or.inl ⟨hb, hw1 ▸ hne, hw1 ▸ hlast, by rw [happ, hw1]⟩)
  · exact Or.inr (Or.inr ⟨hb, by rw [happ, hw1]⟩)

/-- Invariant: every character of the committed word is a space or an
uppercase letter. -/
theorem reachable_word_chars {s : Session} (h : Reachable s) :
    s.current_word.data.all validChar = true := by
  induction h with
  | reset => rfl
  | step hreach hmem hstep ih =>
    rcases handle_word_cases hstep with hw | ⟨hb, _, _, hw⟩ | ⟨hb, hw⟩
    · rw [hw]; exact ih
    · rw [hw, str_data_append, space_data, List.all_append, ih]
      rfl
    · obtain ⟨ch, hdata, hvalid, _⟩ := labels_letter hmem hb
      rw [hw, str_data_append, hdata, List.all_append, ih]
      simp [hvalid]

/-- Invariant: the committed word never starts with a space and never
contains two adjacent spaces. -/
theorem reachable_goodSpacing {s : Session} (h : Reachable s) :
    goodSpacing s.current_word.data = true := by
  induction h with
  | reset => rfl
  | step hreach hmem hstep ih =>
    rcases handle_word_cases hstep with hw | ⟨hb, hne, hlast, hw⟩ | ⟨hb, hw⟩
    · rw [hw]; exact ih
    · rw [hw, str_data_append, space_data]
      exact goodSpacing_append_space ih (str_ne_empty_data hne)
        (by simpa [endsWithSpace] using hlast)
    · obtain ⟨ch, hdata, _, hch⟩ := labels_letter hmem hb
      rw [hw, str_data_append, hdata]
      exact goodSpacing_append_nonspace ih hch

/-! ### Closed forms for feeding one constant symbol from a fresh reset -/

theorem feedN_succ (c : String) (n : Nat) (s : Session) :
    feedN c (n + 1) s =
      match feedN c n s with
      | .error e => .error e
      | .ok s' =>
        match handle_prediction s' c with
        | .error e => .error e
        | .ok (s'', _) => .ok s'' := rfl

theorem feedN_phase1 (c : String) (hc : c ≠ "blank") :
    ∀ n, 1 ≤ n → n ≤ 49 →
      feedN c n resetSession = .ok ⟨"", c, some n, false⟩ := by
  intro n
  induction n with
  | zero => intro h1 _; omega
  | succ m ih =>
    intro _ h2
    by_cases hm : m = 0
    · subst hm
      rw [feedN_succ]
      dsimp only [feedN]
      rw [step_diff resetSession c (by simpa [resetSession] using hc)]
      rfl
    · have hm1 : 1 ≤ m := by omega
      have hm49 : m ≤ 49 := by omega
      rw [feedN_succ, ih hm1 hm49]
      dsimp only
      rw [step_same_unlocked_nocommit ⟨"", c, some m, false⟩ c m rfl rfl rfl
        (by unfold LOCK_THRESHOLD; omega)]

theorem feedN_50 (c : String) (hc : c ≠ "blank") :
    feedN c 50 resetSession = .ok ⟨c, c, some 50, true⟩ := by
  show feedN c (49 + 1) resetSession = _
  rw [feedN_succ, feedN_phase1 c hc 49 (by omega) (by omega)]
  dsimp only
  rw [step_same_unlocked_commit_letter ⟨"", c, some 49, false⟩ c 49 rfl rfl rfl
    (by unfold LOCK_THRESHOLD; omega) hc]
  rfl

theorem feedN_lockedPlus (c : String) (hc : c ≠ "blank") :
    ∀ k, feedN c (50 + k) resetSession = .ok ⟨c, c, some 50, true⟩ := by
  intro k
  induction k with
  | zero => exact feedN_50 c hc
  | succ m ih =>
    have harith : 50 + (m + 1) = (50 + m) + 1 := by omega
    rw [harith, feedN_succ, ih]
    dsimp only
    rw [step_same_locked ⟨c, c, some 50, true⟩ c 50 rfl rfl rfl]

/-! ### Facts about the classifier cascade -/

theorem argmaxAux_lt (ys : List ℚ) (best : ℚ) (bestIdx curIdx N : Nat)
    (hb : bestIdx < N) (hc : curIdx + ys.length ≤ N) :
    argmaxAux ys best bestIdx curIdx < N := by
  induction ys generalizing best bestIdx curIdx with
  | nil => simpa [argmaxAux] using hb
  | cons y ys ih =>
    simp only [List.length_cons] at hc
    simp only [argmaxAux]
    split
    · exact ih y curIdx (curIdx + 1) (by omega) (by omega)
    · exact ih best bestIdx (curIdx + 1) hb (by omega)

theorem argmaxIdx_lt {l : List ℚ} (h : l ≠ []) : argmaxIdx l < l.length := by
  cases l with
  | nil => exact absurd rfl h
  | cons x xs =>
    simp only [argmaxIdx, List.length_cons]
    exact argmaxAux_lt xs x 0 1 _ (by omega) (by omega)

theorem getD_mem {α : Type} {l : List α} {n : Nat} {d : α}
    (h : n < l.length) : l.getD n d ∈ l := by
  rw [List.getD_eq_get?, List.get?_eq_get h]
  exact List.get_mem l n h

/-- The primary candidate always lies in `labels`. -/
theorem top_symbol_mem (scores : List ℚ) : top_symbol scores ∈ labels := by
  unfold top_symbol
  cases hs : scores.take 27 with
  | nil => simp [argmaxIdx, labels]
  | cons x xs =>
    have hlt : argmaxIdx (scores.take 27) < (scores.take 27).length := by
      rw [hs]; exact argmaxIdx_lt (by simp)
    have hle : (scores.take 27).length ≤ labels.length := by
      simpa [labels] using List.length_take_le 27 scores
    rw [← hs]
    exact getD_mem (by omega)

theorem except_bind_ok {ε α β : Type} {e : Except ε α} {f : α → Except ε β}
    {b : β} (h : e.bind f = .ok b) : ∃ a, e = .ok a ∧ f a = .ok b := by
  cases e with
  | error e' => simp [Except.bind] at h
  | ok a => exact ⟨a, rfl, by simpa [Except.bind] using h⟩

theorem pickLabel_ok_mem {g : List String} {l : List ℚ} {f : String}
    (h : pickLabel g l = .ok f) : f ∈ g := by
  unfold pickLabel at h
  cases l with
  | nil => simp at h
  | cons a rest =>
    dsimp only at h
    cases hg : g.get? (argmaxIdx (a :: rest)) with
    | none => rw [hg] at h; simp at h
    | some x =>
      rw [hg] at h
      simp only [Except.ok.injEq] at h
      exact h ▸ List.get?_mem hg

/-- Whatever symbol the hierarchical refinement yields lies in `labels`. -/
theorem refine_ok_mem {top f : String} {dru tkdi smn : Except String (List ℚ)}
    (htop : top ∈ labels) (h : refineSymbol top dru tkdi smn = .ok f) :
    f ∈ labels := by
  unfold refineSymbol at h
  split at h
  · obtain ⟨l, _, hpick⟩ := except_bind_ok h
    have := pickLabel_ok_mem hpick
    fin_cases this <;> simp [labels]
  · split at h
    · obtain ⟨l, _, hpick⟩ := except_bind_ok h
      have := pickLabel_ok_mem hpick
      fin_cases this <;> simp [labels]
    · split at h
      · obtain ⟨l, _, hpick⟩ := except_bind_ok h
        have := pickLabel_ok_mem hpick
        fin_cases this <;> simp [labels]
      · simp only [Except.ok.injEq] at h
        exact h ▸ htop

theorem handleWrap_ok {s : Session} {sym : String} {s' : Session}
    {res : ProcResult} (h : handleWrap s sym = .ok (s', res)) :
    ∃ r, handle_prediction s sym = .ok (s', r) ∧ res = .response r := by
  unfold handleWrap at h
  cases hh : handle_prediction s sym with
  | error e => rw [hh] at h; simp [Except.map] at h
  | ok p =>
    obtain ⟨a, b⟩ := p
    rw [hh] at h
    simp only [Except.map, Except.ok.injEq, Prod.mk.injEq] at h
    obtain ⟨h1, h2⟩ := h
    subst h1
    exact ⟨b, rfl, h2.symm⟩

/-- The pipeline feeds the stability state machine only `"blank"` or a
cascade output, so a successful `process_frame` preserves reachability. -/
theorem process_frame_reachable {s : Session} {env : FrameEnv} {s' : Session}
    {res : ProcResult} (hr : Reachable s)
    (h : process_frame s env = .ok (s', res)) : Reachable s' := by
  unfold process_frame at h
  cases hin : env.input with
  | empty =>
    rw [hin] at h; dsimp only at h
    simp only [Except.ok.injEq, Prod.mk.injEq] at h
    rw [← h.1]; exact hr
  | badB64 =>
    rw [hin] at h; dsimp only at h
    simp only [Except.ok.injEq, Prod.mk.injEq] at h
    rw [← h.1]; exact hr
  | undecodable =>
    rw [hin] at h; dsimp only at h
    simp only [Except.ok.injEq, Prod.mk.injEq] at h
    rw [← h.1]; exact hr
  | frame hh ww =>
    rw [hin] at h; dsimp only at h
    by_cases hroi : roiDim hh 289 * roiDim ww 515 * 3 = 0
    · rw [if_pos hroi] at h
      obtain ⟨r, hcall, _⟩ := handleWrap_ok h
      exact Reachable.step hr (by simp [labels]) hcall
    · rw [if_neg hroi] at h
      by_cases hnh : noHand env.contourAreas = true
      · rw [if_pos hnh] at h
        obtain ⟨r, hcall, _⟩ := handleWrap_ok h
        exact Reachable.step hr (by simp [labels]) hcall
      · rw [if_neg hnh] at h
        cases hp : env.primary with
        | error e => rw [hp] at h; simp at h
        | ok scores =>
          rw [hp] at h
          dsimp only at h
          by_cases hlen : scores.length < 27
          · rw [if_pos hlen] at h; simp at h
          · rw [if_neg hlen] at h
            cases href :
                refineSymbol (top_symbol scores) env.dru env.tkdi env.smn with
            | error e => rw [href] at h; simp at h
            | ok finalSym =>
              rw [href] at h
              dsimp only at h
              obtain ⟨r, hcall, _⟩ := handleWrap_ok h
              exact Reachable.step hr
                (refine_ok_mem (top_symbol_mem scores) href) hcall

/-! ### Confidence values at the two decisive frame counts -/

theorem temporal_confidence_49 : temporal_confidence 49 = 98 := by
  norm_num [temporal_confidence, LOCK_THRESHOLD]

theorem temporal_confidence_50 : temporal_confidence 50 = 100 :=
  temporal_confidence_ge 50 (by unfold LOCK_THRESHOLD; omega)

/-! ## Claim theorems -/

/-- C1: starting from a freshly reset session, feeding any constant
non-blank symbol for exactly 50 consecutive frames causes exactly one
commit: after 49 frames the word is still empty and the 49th response
carries confidence 98; the 50th frame commits exactly that one symbol
(the word becomes that symbol) with confidence 100 and sets
`already_locked`; every further frame of the same symbol leaves the
session state — in particular the word — unchanged. -/
theorem c1_fifty_frames_single_commit (c : String) (hc : c ≠ "blank") :
    feedN c 48 resetSession = .ok ⟨"", c, some 48, false⟩
  ∧ feedN c 49 resetSession = .ok ⟨"", c, some 49, false⟩
  ∧ handle_prediction ⟨"", c, some 48, false⟩ c =
      .ok (⟨"", c, some 49, false⟩,
        { prediction := c, confidence := 98, word := "",
          character := c, sentence := "" })
  ∧ handle_prediction ⟨"", c, some 49, false⟩ c =
      .ok (⟨c, c, some 50, true⟩,
        { prediction := c, confidence := 100, word := c,
          character := c, sentence := "" })
  ∧ ∀ k, feedN c (50 + k) resetSession = .ok ⟨c, c, some 50, true⟩ := by
  refine ⟨feedN_phase1 c hc 48 (by omega) (by omega),
    feedN_phase1 c hc 49 (by omega) (by omega), ?_, ?_,
    feedN_lockedPlus c hc⟩
  · rw [step_same_unlocked_nocommit ⟨"", c, some 48, false⟩ c 48 rfl rfl rfl
      (by unfold LOCK_THRESHOLD; omega)]
    norm_num [temporal_confidence_49]
  · rw [step_same_unlocked_commit_letter ⟨"", c, some 49, false⟩ c 49 rfl rfl
      rfl (by unfold LOCK_THRESHOLD; omega) hc]
    norm_num [temporal_confidence_50]

theorem c1_fifty_frames_single_commit_witness :
    ("A" : String) ≠ "blank" ∧
    (feedN "A" 48 resetSession = .ok ⟨"", "A", some 48, false⟩
     ∧ feedN "A" 49 resetSession = .ok ⟨"", "A", some 49, false⟩
     ∧ handle_prediction ⟨"", "A", some 48, false⟩ "A" =
         .ok (⟨"", "A", some 49, false⟩,
           { prediction := "A", confidence := 98, word := "",
             character := "A", sentence := "" })
     ∧ handle_prediction ⟨"", "A", some 49, false⟩ "A" =
         .ok (⟨"A", "A", some 50, true⟩,
           { prediction := "A", confidence := 100, word := "A",
             character := "A", sentence := "" })
     ∧ ∀ k, feedN "A" (50 + k) resetSession = .ok ⟨"A", "A", some 50, true⟩) :=
  ⟨by decide, c1_fifty_frames_single_commit "A" (by decide)⟩

/-- C3 (code bug): `__init__` does set `current_word = ""`,
`last_prediction = "blank"` and `already_locked = False`, but it never
initializes `stable_frame_count` — the attribute is absent (`none`), not an
initialized integer `0`.  Consequently the very first `_handle_prediction`
call on a constructed-but-never-reset system raises `AttributeError`
whenever the incoming symbol equals the initial `last_prediction`
(e.g. a `"blank"` frame). -/
theorem c3_constructor_leaves_counter_uninitialized :
    initSession.current_word = "" ∧
    initSession.last_prediction = "blank" ∧
    initSession.already_locked = false ∧
    initSession.stable_frame_count = none ∧
    initSession.stable_frame_count ≠ some 0 ∧
    handle_prediction initSession "blank" =
      .error ("AttributeError", initSession) :=
  ⟨rfl, rfl, rfl, rfl, by decide, by decide⟩

/-- A frame environment on which decoding succeeds (480×640 frame), a hand
is detected (largest contour area 3000 ≥ 2500), and the primary
classifier's `predict` raises an exception. -/
def predictFailureEnv : FrameEnv :=
  { input := .frame 480 640
    contourAreas := [3000]
    primary := .error "PredictionFailure"
    dru := .ok [1, 0, 0]
    tkdi := .ok [1, 0, 0, 0]
    smn := .ok [1, 0, 0] }

/-- C2 counterexample: on a well-formed frame whose primary `predict`
raises, `process_frame` does NOT return a processing-failed (null/error)
result — the exception escapes `process_frame` uncaught (only the web
framework above it turns the escaped exception into a 500 response). -/
theorem c2_counterexample_inference_error_escapes :
    process_frame resetSession predictFailureEnv =
      .error ("PredictionFailure", resetSession) ∧
    (process_frame resetSession predictFailureEnv).isOk = false := by
  constructor <;> decide

/-- C2 (amended): an exception raised by the primary classifier's `predict`
on a well-formed mask is not caught inside `process_frame`; it propagates
to the caller, and the session state at the moment the exception escapes is
exactly the pre-call state — no field was modified for that frame. -/
theorem c2_amended_inference_error_propagates_state_intact
    (s : Session) (env : FrameEnv) (hh ww : Nat) (e : String)
    (hin : env.input = .frame hh ww)
    (hroi : roiDim hh 289 * roiDim ww 515 * 3 ≠ 0)
    (hnh : noHand env.contourAreas = false)
    (hp : env.primary = .error e) :
    process_frame s env = .error (e, s) := by
  unfold process_frame
  rw [hin]
  dsimp only
  rw [if_neg hroi, if_neg (by rw [hnh]; exact Bool.false_ne_true), hp]

theorem c2_amended_witness :
    process_frame resetSession predictFailureEnv =
      .error ("PredictionFailure", resetSession) :=
  c2_amended_inference_error_propagates_state_intact resetSession
    predictFailureEnv 480 640 "PredictionFailure" rfl (by decide) (by decide)
    rfl

/-- C9: for a malformed payload (base64/buffer decoding raises) and for an
undecodable payload (`cv2.imdecode` yields `None`), `process_frame` returns
`None` — surfaced by the route as a generic processing-failed response —
and the session state returned is exactly the pre-call state: no field,
in particular `current_word`, changes. -/
theorem c9_decode_failure_null_and_atomic (s : Session) (env : FrameEnv) :
    (env.input = .badB64 →
       process_frame s env = .ok (s, .nullResult)) ∧
    (env.input = .undecodable →
       process_frame s env = .ok (s, .nullResult)) := by
  constructor <;> intro hin <;> unfold process_frame <;> rw [hin]

/-- A malformed-payload environment and an undecodable-payload
environment. -/
def badB64Env : FrameEnv :=
  { input := .badB64, contourAreas := [], primary := .ok [],
    dru := .ok [], tkdi := .ok [], smn := .ok [] }

def undecodableEnv : FrameEnv :=
  { input := .undecodable, contourAreas := [], primary := .ok [],
    dru := .ok [], tkdi := .ok [], smn := .ok [] }

theorem c9_decode_failure_witness :
    process_frame resetSession badB64Env = .ok (resetSession, .nullResult) ∧
    process_frame resetSession undecodableEnv =
      .ok (resetSession, .nullResult) :=
  ⟨(c9_decode_failure_null_and_atomic resetSession badB64Env).1 rfl,
   (c9_decode_failure_null_and_atomic resetSession undecodableEnv).2 rfl⟩

/-- C5: a decoded frame whose region of interest has zero pixel area, and a
decoded frame whose binarized ROI has no contour or whose largest external
contour area is below 2500 px², both make `process_frame` ignore the
classifiers entirely and run the normal stability/lock state machine on the
symbol `"blank"` (`handleWrap s "blank"` is exactly
`_handle_prediction("blank")` wrapped as a response, not an error). -/
theorem c5_degenerate_roi_yields_blank (s : Session) (env : FrameEnv)
    (hh ww : Nat) :
    (env.input = .frame hh ww → roiDim hh 289 * roiDim ww 515 * 3 = 0 →
       process_frame s env = handleWrap s "blank") ∧
    (env.input = .frame hh ww → roiDim hh 289 * roiDim ww 515 * 3 ≠ 0 →
       noHand env.contourAreas = true →
       process_frame s env = handleWrap s "blank") := by
  constructor
  · intro hin hroi
    unfold process_frame
    rw [hin]
    dsimp only
    rw [if_pos hroi]
  · intro hin hroi hnh
    unfold process_frame
    rw [hin]
    dsimp only
    rw [if_neg hroi, if_pos hnh]

/-- A frame too small to contain the ROI (zero-area ROI) and a full-size
frame with no sufficiently large contour, with classifier oracles that
would predict a letter if they were consulted. -/
def tinyFrameEnv : FrameEnv :=
  { input := .frame 0 0, contourAreas := [9999],
    primary := .ok ((List.range 27).map fun i => if i = 1 then 1 else 0),
    dru := .ok [1, 0, 0], tkdi := .ok [1, 0, 0, 0], smn := .ok [1, 0, 0] }

def noHandEnv : FrameEnv :=
  { input := .frame 480 640, contourAreas := [2499],
    primary := .ok ((List.range 27).map fun i => if i = 1 then 1 else 0),
    dru := .ok [1, 0, 0], tkdi := .ok [1, 0, 0, 0], smn := .ok [1, 0, 0] }

theorem c5_degenerate_roi_witness :
    process_frame resetSession tinyFrameEnv =
      handleWrap resetSession "blank" ∧
    process_frame resetSession noHandEnv =
      handleWrap resetSession "blank" :=
  ⟨(c5_degenerate_roi_yields_blank resetSession tinyFrameEnv 0 0).1 rfl
      (by decide),
   (c5_degenerate_roi_yields_blank resetSession noHandEnv 480 640).2 rfl
      (by decide) (by decide)⟩

/-- C4: when the primary candidate is `'D'`, the final symbol is the DRU
disambiguator's highest-scoring label among `{D,R,U}` (first-occurring
argmax of its score vector), and the TKDI disambiguator is never consulted:
the result does not depend on the TKDI oracle at all. -/
theorem c4_top_d_routed_to_dru (scores : List ℚ)
    (dru tkdi tkdi' smn : Except String (List ℚ)) (l : List ℚ)
    (htop : top_symbol scores = "D") :
    refineSymbol (top_symbol scores) dru tkdi smn =
      dru.bind (pickLabel ["D", "R", "U"]) ∧
    refineSymbol (top_symbol scores) dru tkdi smn =
      refineSymbol (top_symbol scores) dru tkdi' smn ∧
    (dru = .ok l → l.length = 3 →
      refineSymbol (top_symbol scores) dru tkdi smn =
        .ok ((["D", "R", "U"] : List String).getD (argmaxIdx l) "D")) := by
  refine ⟨?_, ?_, ?_⟩
  · rw [htop]; unfold refineSymbol; simp
  · rw [htop]; unfold refineSymbol; simp
  · intro hdru hlen
    rw [htop]
    subst hdru
    unfold refineSymbol
    rw [if_pos (by simp)]
    show pickLabel ["D", "R", "U"] l = _
    unfold pickLabel
    cases l with
    | nil => simp at hlen
    | cons a rest =>
      dsimp only
      have hlt : argmaxIdx (a :: rest) < (["D", "R", "U"] : List String).length := by
        have h1 := argmaxIdx_lt (l := a :: rest) (by simp)
        rw [hlen] at h1
        simpa using h1
      cases hg : (["D", "R", "U"] : List String).get? (argmaxIdx (a :: rest)) with
      | none => rw [List.get?_eq_get hlt] at hg; cases hg
      | some x =>
        rw [List.getD_eq_get?, hg]
        rfl

/-- Primary score vector ranking `'D'` (index 4 of `labels`) highest. -/
def scoresTopD : List ℚ :=
  (List.range 27).map fun i => if i = 4 then 1 else 0

theorem c4_top_d_routed_to_dru_witness :
    top_symbol scoresTopD = "D" ∧
    (refineSymbol (top_symbol scoresTopD) (.ok [0, 5, 1]) (.ok [9, 0, 0, 0])
        (.ok [1, 0, 0]) =
      Except.bind (.ok [0, 5, 1]) (pickLabel ["D", "R", "U"]) ∧
     refineSymbol (top_symbol scoresTopD) (.ok [0, 5, 1]) (.ok [9, 0, 0, 0])
        (.ok [1, 0, 0]) =
       refineSymbol (top_symbol scoresTopD) (.ok [0, 5, 1]) (.error "unused")
        (.ok [1, 0, 0]) ∧
     ((Except.ok [0, 5, 1] : Except String (List ℚ)) = .ok [0, 5, 1] →
       ([0, 5, 1] : List ℚ).length = 3 →
       refineSymbol (top_symbol scoresTopD) (.ok [0, 5, 1]) (.ok [9, 0, 0, 0])
          (.ok [1, 0, 0]) =
         .ok ((["D", "R", "U"] : List String).getD
           (argmaxIdx ([0, 5, 1] : List ℚ)) "D"))) :=
  ⟨by decide,
   c4_top_d_routed_to_dru scoresTopD (.ok [0, 5, 1]) (.ok [9, 0, 0, 0])
     (.error "unused") (.ok [1, 0, 0]) [0, 5, 1] (by decide)⟩

/-- C6: a blank commit (the count reaching the lock threshold while
unlocked, on a blank run) appends exactly one space exactly when the
current word is non-empty and does not already end with a space; and in
every session state reachable from a reset, the committed word never starts
with a space and never contains two adjacent spaces (so two consecutive
blank locks cannot produce two consecutive spaces). -/
theorem c6_blank_commit_space_discipline :
    (∀ (s : Session) (n : Nat), s.last_prediction = "blank" →
       s.already_locked = false → s.stable_frame_count = some n →
       LOCK_THRESHOLD ≤ n + 1 →
       handle_prediction s "blank" =
         .ok ({ s with
                 current_word :=
                   if s.current_word ≠ "" ∧ ¬ endsWithSpace s.current_word
                   then s.current_word ++ " " else s.current_word,
                 stable_frame_count := some (n + 1),
                 already_locked := true },
           { prediction := "blank", confidence := temporal_confidence (n + 1),
             word := if s.current_word ≠ "" ∧ ¬ endsWithSpace s.current_word
                     then s.current_word ++ " " else s.current_word,
             character := "blank", sentence := "" })) ∧
    (∀ s : Session, Reachable s → goodSpacing s.current_word.data = true) :=
  ⟨fun s n h1 h2 h3 h4 => step_same_unlocked_commit_blank s n h1 h2 h3 h4,
   fun _ h => reachable_goodSpacing h⟩

theorem c6_blank_commit_space_discipline_witness :
    handle_prediction ⟨"AB", "blank", some 49, false⟩ "blank" =
      .ok ({ (⟨"AB", "blank", some 49, false⟩ : Session) with
              current_word :=
                if ("AB" : String) ≠ "" ∧ ¬ endsWithSpace "AB"
                then "AB" ++ " " else "AB",
              stable_frame_count := some (49 + 1),
              already_locked := true },
        { prediction := "blank", confidence := temporal_confidence (49 + 1),
          word := if ("AB" : String) ≠ "" ∧ ¬ endsWithSpace "AB"
                  then "AB" ++ " " else "AB",
          character := "blank", sentence := "" }) ∧
    goodSpacing resetSession.current_word.data = true :=
  ⟨c6_blank_commit_space_discipline.1 ⟨"AB", "blank", some 49, false⟩ 49 rfl
     rfl rfl (by unfold LOCK_THRESHOLD; omega),
   c6_blank_commit_space_discipline.2 resetSession Reachable.reset⟩

/-- In a reachable state the frame counter reads zero only in the reset
state itself: every `_handle_prediction` step leaves it at `≥ 1`. -/
theorem reachable_count_zero {s : Session} (h : Reachable s)
    (h0 : s.stable_frame_count = some 0) : s = resetSession := by
  induction h with
  | reset => rfl
  | step hreach hmem hstep ih =>
    obtain ⟨s1, n, hstab, hn, hs', _⟩ := handle_ok_elim hstep
    subst hs'
    rw [commit_stable_frame_count, hn] at h0
    injection h0 with h0
    subst h0
    rcases stability_ok_elim hstab with ⟨_, _, m, hm, rfl⟩ | ⟨_, hlock, rfl⟩ |
      ⟨_, rfl⟩
    · simp at hn
    · obtain ⟨m, hm, hge⟩ := reachable_locked_ge hreach hlock
      rw [hm] at hn
      injection hn with hn
      unfold LOCK_THRESHOLD at hge
      omega
    · simp at hn

/-- C7: whenever the incoming symbol differs from `last_prediction`,
`_handle_prediction` sets the counter to exactly 1 (and the commit check
`1 ≥ 50` fails, so the lock stays cleared), regardless of the prior lock
state; and among reachable states the counter is 0 only in the reset
state. -/
theorem c7_symbol_change_resets_to_one :
    (∀ (s : Session) (c : String), c ≠ s.last_prediction →
       handle_prediction s c =
         .ok ({ s with last_prediction := c, stable_frame_count := some 1,
                       already_locked := false },
           { prediction := c, confidence := temporal_confidence 1,
             word := s.current_word, character := c, sentence := "" })) ∧
    (∀ s : Session, Reachable s → s.stable_frame_count = some 0 →
       s = resetSession) :=
  ⟨fun s c h => step_diff s c h, fun _ h h0 => reachable_count_zero h h0⟩

theorem c7_symbol_change_resets_to_one_witness :
    handle_prediction ⟨"WOR", "A", some 50, true⟩ "B" =
      .ok ({ (⟨"WOR", "A", some 50, true⟩ : Session) with
              last_prediction := "B", stable_frame_count := some 1,
              already_locked := false },
        { prediction := "B", confidence := temporal_confidence 1,
          word := "WOR", character := "B", sentence := "" }) ∧
    (resetSession : Session) = resetSession :=
  ⟨c7_symbol_change_resets_to_one.1 ⟨"WOR", "A", some 50, true⟩ "B"
     (by decide),
   c7_symbol_change_resets_to_one.2 resetSession Reachable.reset rfl⟩

/-- C8: the confidence returned by `_handle_prediction` equals
`min(100, stable_frame_count / 50 * 100)` computed from the updated
counter; across consecutive frames carrying the same symbol while unlocked
it is non-decreasing (the new confidence is at least the previous frame's
value `min(100, n/50*100)`); and it equals exactly 100 whenever the counter
is at least 50. -/
theorem c8_confidence_formula :
    (∀ (s : Session) (c : String) (s' : Session) (r : Response),
       handle_prediction s c = .ok (s', r) →
       ∃ n, s'.stable_frame_count = some n ∧
         r.confidence = min 100 ((n : ℚ) / (LOCK_THRESHOLD : ℚ) * 100)) ∧
    (∀ (s : Session) (c : String) (s' : Session) (r : Response) (n : Nat),
       c = s.last_prediction → s.already_locked = false →
       s.stable_frame_count = some n →
       handle_prediction s c = .ok (s', r) →
       min 100 ((n : ℚ) / (LOCK_THRESHOLD : ℚ) * 100) ≤ r.confidence) ∧
    (∀ (s : Session) (c : String) (s' : Session) (r : Response) (n : Nat),
       handle_prediction s c = .ok (s', r) →
       s'.stable_frame_count = some n → LOCK_THRESHOLD ≤ n →
       r.confidence = 100) := by
  refine ⟨?_, ?_, ?_⟩
  · intro s c s' r h
    obtain ⟨s1, n, hstab, hn, hs', hr⟩ := handle_ok_elim h
    refine ⟨n, ?_, ?_⟩
    · rw [hs', commit_stable_frame_count, hn]
    · rw [hr]; exact temporal_confidence_eq_min n
  · intro s c s' r n h1 h2 h3 h
    obtain ⟨s1, m, hstab, hm, hs', hr⟩ := handle_ok_elim h
    rcases stability_ok_elim hstab with ⟨_, _, k, hk, rfl⟩ | ⟨_, hlock, rfl⟩ |
      ⟨hne, rfl⟩
    · rw [h3] at hk
      injection hk with hk
      subst hk
      simp only [Option.some.injEq] at hm
      rw [hr]
      calc min 100 ((n : ℚ) / (LOCK_THRESHOLD : ℚ) * 100)
          = temporal_confidence n := (temporal_confidence_eq_min n).symm
        _ ≤ temporal_confidence (n + 1) := temporal_confidence_mono n
        _ = temporal_confidence m := by rw [hm]
    · rw [h2] at hlock; cases hlock
    · exact absurd h1 hne
  · intro s c s' r n h hn' hge
    obtain ⟨s1, m, hstab, hm, hs', hr⟩ := handle_ok_elim h
    rw [hs', commit_stable_frame_count, hm] at hn'
    injection hn' with hn'
    subst hn'
    rw [hr]
    exact temporal_confidence_ge m hge

theorem c8_confidence_formula_witness :
    (∃ n, (⟨"", "X", some 1, false⟩ : Session).stable_frame_count = some n ∧
       ({ prediction := "X", confidence := temporal_confidence 1, word := "",
          character := "X", sentence := "" } : Response).confidence =
         min 100 ((n : ℚ) / (LOCK_THRESHOLD : ℚ) * 100)) ∧
    (min 100 ((1 : ℚ) / (LOCK_THRESHOLD : ℚ) * 100) ≤
       ({ prediction := "A", confidence := temporal_confidence (1 + 1),
          word := "", character := "A", sentence := "" } : Response).confidence) ∧
    (({ prediction := "A", confidence := temporal_confidence (49 + 1),
        word := "" ++ "A", character := "A",
        sentence := "" } : Response).confidence = 100) :=
  ⟨c8_confidence_formula.1 resetSession "X" _ _
     (step_diff resetSession "X" (by decide)),
   c8_confidence_formula.2.1 ⟨"", "A", some 1, false⟩ "A" _ _ 1 rfl rfl rfl
     (step_same_unlocked_nocommit ⟨"", "A", some 1, false⟩ "A" 1 rfl rfl rfl
       (by decide)),
   c8_confidence_formula.2.2 ⟨"", "A", some 49, false⟩ "A" _ _ 50
     (step_same_unlocked_commit_letter ⟨"", "A", some 49, false⟩ "A" 49 rfl
       rfl rfl (by decide) (by decide))
     rfl (by decide)⟩

/-- C10: in every session state reachable from `reset_state` by any
sequence of `_handle_prediction` calls on pipeline symbols (`"blank"` or a
cascade label), every character of `current_word` is an uppercase letter
`'A'..'Z'` or a space. -/
theorem c10_word_characters (s : Session) (h : Reachable s) :
    s.current_word.data.all validChar = true :=
  reachable_word_chars h

theorem c10_word_characters_witness :
    resetSession.current_word.data.all validChar = true :=
  c10_word_characters resetSession Reachable.reset

end SignLang
